import Mathlib

/-!
Shallow embedding of `src/renderer/canvas/ParticleSystem.ts`, the granular
particle engine of the hourglass desktop icon, together with proofs of the
spec properties about it. Positions, velocities and geometry are embedded as
real numbers (the source uses JS doubles and `Math.sqrt`); the release
scheduler state (durations, release interval, elapsed time) is embedded as
exact rationals so that it stays computable. Calls to `Math.random()` are
embedded as explicit streams `rand : ℕ → ℝ`, consumed at fixed indices; the
theorems quantify over all streams whose values lie in `[0, 1)`.
-/

namespace Hourglass

/-- Numeric constant GRAVITY from the source (px/s²). -/
def GRAVITY : ℝ := 600

/-- Numeric constant DAMPING from the source (velocity retention on bounce). -/
def DAMPING : ℝ := 0.3

/-- Numeric constant FRICTION from the source (horizontal friction). -/
def FRICTION : ℝ := 0.92

/-- Numeric constant SETTLE_THRESHOLD from the source. -/
def SETTLE_THRESHOLD : ℝ := 8

/-- Numeric constant GRAIN_RADIUS from the source. -/
def GRAIN_RADIUS : ℝ := 2.5

/-- Numeric constant CELL_SIZE = GRAIN_RADIUS * 4 from the source. -/
def CELL_SIZE : ℝ := GRAIN_RADIUS * 4

/-- One simulated sand particle, mirroring `interface Grain`. -/
structure Grain where
  x : ℝ
  y : ℝ
  vx : ℝ
  vy : ℝ
  radius : ℝ
  color : String
  colorOffset : ℝ
  settled : Bool
  active : Bool

instance : Inhabited Grain :=
  ⟨{ x := 0, y := 0, vx := 0, vy := 0, radius := 0, color := "",
     colorOffset := 0, settled := false, active := false }⟩

/-- A wall segment, mirroring `interface LineSegment`. -/
structure LineSegment where
  x1 : ℝ
  y1 : ℝ
  x2 : ℝ
  y2 : ℝ

/-- The container geometry, mirroring `interface HourglassGeometry`. -/
structure HourglassGeometry where
  walls : List LineSegment
  neckLeft : ℝ
  neckRight : ℝ
  neckTopY : ℝ
  neckBottomY : ℝ
  bottomFloorY : ℝ
  topCeilingY : ℝ

/-- The mutable fields of `class ParticleSystem`. The spatial grid field is
omitted from the state: the source clears and rebuilds it at the start of
every `update` call and reads it only inside that same call, so it is
embedded as a local value of `update`. -/
structure ParticleSystem where
  grains : List Grain
  geometry : Option HourglassGeometry
  totalGrains : ℕ
  releasedCount : ℕ
  releaseInterval : ℚ
  lastReleaseTime : ℚ
  elapsedMs : ℚ
  totalMs : ℚ

/-- The state of a freshly constructed `ParticleSystem` (all field
initializers of the class). -/
def initialState : ParticleSystem :=
  { grains := [], geometry := none, totalGrains := 0, releasedCount := 0,
    releaseInterval := 0, lastReleaseTime := 0, elapsedMs := 0, totalMs := 0 }

/-- Embedding of `_getWidthAtY` for a present geometry (the source first
returns 0 when no geometry is set; callers inside the class only reach the
body with geometry present, which is the case this definition covers). -/
noncomputable def getWidthAtY (geo : HourglassGeometry) (y : ℝ) : ℝ :=
  let neckWidth := geo.neckRight - geo.neckLeft
  if geo.neckTopY ≤ y ∧ y ≤ geo.neckBottomY then neckWidth
  else if y < geo.neckTopY then
    let t := (geo.neckTopY - y) / (geo.neckTopY - geo.topCeilingY)
    let maxWidth := (geo.neckRight - geo.neckLeft) + 120
    neckWidth + (maxWidth - neckWidth) * Real.sqrt (min 1 t)
  else
    let t := (y - geo.neckBottomY) / (geo.bottomFloorY - geo.neckBottomY)
    let maxWidth := (geo.neckRight - geo.neckLeft) + 120
    neckWidth + (maxWidth - neckWidth) * Real.sqrt (min 1 t)

/-- The null-guarded entry point of `_getWidthAtY` (returns 0 with no
geometry). -/
noncomputable def ParticleSystem.widthAtY (s : ParticleSystem) (y : ℝ) : ℝ :=
  match s.geometry with
  | none => 0
  | some geo => getWidthAtY geo y

/-- The grain count computed by `init`:
`Math.min(400, Math.max(200, Math.floor(totalMs / 500)))`. -/
def grainCountFor (totalMs : ℚ) : ℕ :=
  (min 400 (max 200 ⌊totalMs / 500⌋)).toNat

/-- The reserve grain created at loop index `i` of `init`. The four
`Math.random()` calls of iteration `i` are the stream values
`rand (4*i) .. rand (4*i+3)`, in source order (x jitter, y jitter, radius,
colorOffset). -/
noncomputable def initGrain (geo : HourglassGeometry) (rand : ℕ → ℝ) (i : ℕ) : Grain :=
  let centerX := (geo.neckLeft + geo.neckRight) / 2
  let topHeight := geo.neckTopY - geo.topCeilingY
  let row := i / 20
  let col := i % 20
  let rowY := geo.neckTopY - 12 - (row : ℝ) * (GRAIN_RADIUS * 2.2)
  let rowWidth := getWidthAtY geo rowY * 0.8
  let rowStartX := centerX - rowWidth / 2
  let grainX := rowStartX + ((col : ℝ) / 19) * rowWidth
  { x := grainX + (rand (4 * i) - 0.5) * 2,
    y := min rowY (geo.topCeilingY + topHeight * 0.9) + (rand (4 * i + 1) - 0.5) * 2,
    vx := 0,
    vy := 0,
    radius := GRAIN_RADIUS + (rand (4 * i + 2) - 0.5) * 0.8,
    color := "",
    colorOffset := (rand (4 * i + 3) - 0.5) * 2,
    settled := true,
    active := false }

/-- Embedding of `init(totalMs)`. The source clears grains, releasedCount,
lastReleaseTime and elapsedMs before the geometry guard, and only then — with
geometry present — assigns totalMs, totalGrains, releaseInterval and packs
the reserve grains. -/
noncomputable def ParticleSystem.init (rand : ℕ → ℝ) (totalMs : ℚ)
    (s : ParticleSystem) : ParticleSystem :=
  let s0 := { s with grains := ([] : List Grain), releasedCount := 0,
                     lastReleaseTime := 0, elapsedMs := 0 }
  match s0.geometry with
  | none => s0
  | some geo =>
    let total := grainCountFor totalMs
    { s0 with
      totalMs := totalMs,
      totalGrains := total,
      releaseInterval := totalMs / (total : ℚ),
      grains := (List.range total).map (initGrain geo rand) }

/-- Embedding of `reset()` (the source leaves `_releaseInterval` and
`_totalMs` untouched). -/
def ParticleSystem.reset (s : ParticleSystem) : ParticleSystem :=
  { s with grains := ([] : List Grain), releasedCount := 0,
           lastReleaseTime := 0, elapsedMs := 0, totalGrains := 0 }

/-- Embedding of `setGeometry`. -/
def ParticleSystem.setGeometry (geo : HourglassGeometry)
    (s : ParticleSystem) : ParticleSystem :=
  { s with geometry := some geo }

/-- The release target of `update`:
`Math.min(totalGrains, Math.floor(timerElapsedMs / releaseInterval))`.
When `releaseInterval = 0` the JS division produces Infinity (for e > 0),
NaN (for e = 0) or -Infinity (for e < 0); `Math.min` then yields
`totalGrains`, NaN, -Infinity respectively, and the while loop
`releasedCount < target` consequently runs `totalGrains - releasedCount`
times, zero times, zero times. The zero branch below encodes exactly that
observable iteration count; the nonzero branch is the exact rational
formula. -/
def ParticleSystem.targetReleased (s : ParticleSystem) (e : ℚ) : ℤ :=
  if s.releaseInterval = 0 then
    (if 0 < e then (s.totalGrains : ℤ) else (s.releasedCount : ℤ))
  else
    min (s.totalGrains : ℤ) ⌊e / s.releaseInterval⌋

/-- The scan of `_releaseNextGrain` that picks the inactive grain of
greatest y. `bestY` starts at -Infinity, embedded by the `none` accumulator;
the comparison is strict, so the first grain attaining the maximum wins. -/
noncomputable def bestInactiveGo : List Grain → ℕ → Option (ℕ × ℝ) → Option (ℕ × ℝ)
  | [], _, acc => acc
  | g :: rest, j, acc =>
    let acc1 :=
      if g.active then acc
      else
        match acc with
        | none => some (j, g.y)
        | some (jb, yb) => if yb < g.y then some (j, g.y) else some (jb, yb)
    bestInactiveGo rest (j + 1) acc1

/-- Index and y of the inactive grain `_releaseNextGrain` selects. -/
noncomputable def bestInactive (gs : List Grain) : Option (ℕ × ℝ) :=
  bestInactiveGo gs 0 none

/-- Embedding of `_releaseNextGrain`. It is only called from `update`, after
the geometry guard, so it receives the geometry directly. The three
`Math.random()` calls are `r1` (x), `r2` (vx), `r3` (vy) in source order.
The released count is incremented whether or not a candidate was found. -/
noncomputable def ParticleSystem.releaseNextGrain (geo : HourglassGeometry)
    (r1 r2 r3 : ℝ) (s : ParticleSystem) : ParticleSystem :=
  match bestInactive s.grains with
  | none => { s with releasedCount := s.releasedCount + 1 }
  | some (j, _) =>
    let b := s.grains.getD j default
    let centerX := (geo.neckLeft + geo.neckRight) / 2
    let b1 := { b with
      x := centerX + (r1 - 0.5) * (geo.neckRight - geo.neckLeft - b.radius * 2),
      y := geo.neckTopY + 2,
      vx := (r2 - 0.5) * 10,
      vy := 20 + r3 * 30,
      active := true,
      settled := false }
    { s with grains := s.grains.set j b1, releasedCount := s.releasedCount + 1 }

/-- The while loop of `update` that calls `_releaseNextGrain` until
`releasedCount` reaches the target; `n` is the number of iterations still to
run and `j` counts iterations already run (indexing the random stream). -/
noncomputable def ParticleSystem.releaseLoop (geo : HourglassGeometry)
    (rand : ℕ → ℝ) : ℕ → ℕ → ParticleSystem → ParticleSystem
  | 0, _, s => s
  | n + 1, j, s =>
    ParticleSystem.releaseLoop geo rand n (j + 1)
      (ParticleSystem.releaseNextGrain geo (rand (3 * j)) (rand (3 * j + 1))
        (rand (3 * j + 2)) s)

/-- The bucket key of the spatial hash: (floor(x/CELL_SIZE), floor(y/CELL_SIZE)). -/
noncomputable def cellOf (x y : ℝ) : ℤ × ℤ :=
  (⌊x / CELL_SIZE⌋, ⌊y / CELL_SIZE⌋)

/-- Embedding of `_buildSpatialGrid` as a map from bucket key to the indices
of the active grains whose position at build time hashes to that bucket, in
index order (the JS Map stores the grains of a bucket in insertion order,
which is index order since the build loop walks the array in order). -/
noncomputable def buildGrid (gs : List Grain) (c : ℤ × ℤ) : List ℕ :=
  (List.range gs.length).filter (fun j =>
    let g := gs.getD j default
    g.active && decide (cellOf g.x g.y = c))

/-- The (dx, dy) visit order of the 9-cell neighborhood scan in
`_getNearby`: dx is the outer loop, dy the inner one, each from -1 to 1. -/
def nearbyOffsets : List (ℤ × ℤ) :=
  [(-1, -1), (-1, 0), (-1, 1), (0, -1), (0, 0), (0, 1), (1, -1), (1, 0), (1, 1)]

/-- Embedding of `_getNearby` for the grain at index `i`: indices of the
other grains found in the 9 buckets around the current position of grain
`i`. Bucket membership is from grid build time; the center cell comes from
the grain's current (already integrated) position, as in the source. -/
noncomputable def getNearby (grid : ℤ × ℤ → List ℕ) (gs : List Grain)
    (i : ℕ) : List ℕ :=
  let g := gs.getD i default
  let c := cellOf g.x g.y
  nearbyOffsets.flatMap (fun d =>
    (grid (c.1 + d.1, c.2 + d.2)).filter (fun j => j ≠ i))

/-- Step 1 of `_updateGrain`: gravity, horizontal friction, and position
integration, in source order. -/
noncomputable def integrateGrain (dt : ℝ) (g : Grain) : Grain :=
  let vy1 := g.vy + GRAVITY * dt
  let vx1 := g.vx * FRICTION
  { g with vy := vy1, vx := vx1, x := g.x + vx1 * dt, y := g.y + vy1 * dt }

/-- The clamped parametric projection parameter of `_collideWall`. -/
noncomputable def wallT (g : Grain) (w : LineSegment) : ℝ :=
  let dx := w.x2 - w.x1
  let dy := w.y2 - w.y1
  let len2 := dx * dx + dy * dy
  max 0 (min 1 (((g.x - w.x1) * dx + (g.y - w.y1) * dy) / len2))

/-- The closest point of the wall segment to the grain center in
`_collideWall`. -/
noncomputable def wallClosest (g : Grain) (w : LineSegment) : ℝ × ℝ :=
  (w.x1 + wallT g w * (w.x2 - w.x1), w.y1 + wallT g w * (w.y2 - w.y1))

/-- The distance from the grain center to the closest wall point in
`_collideWall`. -/
noncomputable def wallDist (g : Grain) (w : LineSegment) : ℝ :=
  let c := wallClosest g w
  Real.sqrt ((g.x - c.1) * (g.x - c.1) + (g.y - c.2) * (g.y - c.2))

/-- The contact normal of `_collideWall` ((0, -1) when the center sits
exactly on the wall). -/
noncomputable def wallNormal (g : Grain) (w : LineSegment) : ℝ × ℝ :=
  let c := wallClosest g w
  let dist := wallDist g w
  if 0 < dist then ((g.x - c.1) / dist, (g.y - c.2) / dist) else (0, -1)

/-- Embedding of `_collideWall`: degenerate segments are skipped; a grain
whose center is nearer to the segment than its radius is pushed to touch,
and its velocity is changed by -2·(v·n)·n·DAMPING when moving into the wall
(v·n < 0). -/
noncomputable def collideWall (g : Grain) (w : LineSegment) : Grain :=
  let dx := w.x2 - w.x1
  let dy := w.y2 - w.y1
  let len2 := dx * dx + dy * dy
  if len2 = 0 then g
  else
    let c := wallClosest g w
    let dist := wallDist g w
    if dist < g.radius then
      let n := wallNormal g w
      let g1 := { g with x := c.1 + n.1 * g.radius, y := c.2 + n.2 * g.radius }
      let dot := g1.vx * n.1 + g1.vy * n.2
      if dot < 0 then
        { g1 with vx := g1.vx - 2 * dot * n.1 * DAMPING,
                  vy := g1.vy - 2 * dot * n.2 * DAMPING }
      else g1
    else g

/-- Floor collision step of `_updateGrain`. -/
noncomputable def floorCollide (geo : HourglassGeometry) (g : Grain) : Grain :=
  if geo.bottomFloorY < g.y + g.radius then
    { g with y := geo.bottomFloorY - g.radius, vy := g.vy * (-DAMPING),
             vx := g.vx * FRICTION }
  else g

/-- Ceiling collision step of `_updateGrain`. -/
noncomputable def ceilingCollide (geo : HourglassGeometry) (g : Grain) : Grain :=
  if g.y - g.radius < geo.topCeilingY then
    { g with y := geo.topCeilingY + g.radius, vy := g.vy * (-DAMPING) }
  else g

/-- One iteration of the grain-to-grain loop of `_updateGrain`, between
grain `i` (the grain being updated) and neighbor `j`, acting on the current
grain list. Mirrors the source: both reads and the two position pushes use
the values current at this iteration, the push moves each unsettled party
half the overlap, and only grain `i` gets the velocity damp (again only if
unsettled). -/
noncomputable def pairStep (i j : ℕ) (gs : List Grain) : List Grain :=
  let g := gs.getD i default
  let o := gs.getD j default
  let dx := o.x - g.x
  let dy := o.y - g.y
  let dist := Real.sqrt (dx * dx + dy * dy)
  let minDist := g.radius + o.radius
  if dist < minDist ∧ 0.01 < dist then
    let overlap := minDist - dist
    let nx := dx / dist
    let ny := dy / dist
    let pushFactor := overlap * 0.5
    let g1 := if g.settled then g else
      { g with x := g.x - nx * pushFactor, y := g.y - ny * pushFactor }
    let o1 := if o.settled then o else
      { o with x := o.x + nx * pushFactor, y := o.y + ny * pushFactor }
    let g2 := if g.settled then g1 else
      { g1 with vx := g1.vx - nx * overlap * 2, vy := g1.vy - ny * overlap * 2 }
    (gs.set i g2).set j o1
  else gs

/-- The settling check of `_updateGrain` for grain `i`, over the same
neighbor list as the collision loop. -/
noncomputable def settleCheck (geo : HourglassGeometry) (nearby : List ℕ)
    (i : ℕ) (gs : List Grain) : List Grain :=
  let g := gs.getD i default
  if geo.neckBottomY < g.y then
    let speed := Real.sqrt (g.vx * g.vx + g.vy * g.vy)
    if speed < SETTLE_THRESHOLD then
      let onFloor := geo.bottomFloorY - 1 ≤ g.y + g.radius
      let onGrain := nearby.any (fun j =>
        let o := gs.getD j default
        o.settled && decide (g.y < o.y ∧
          Real.sqrt ((o.x - g.x) * (o.x - g.x) + (o.y - g.y) * (o.y - g.y))
            < g.radius + o.radius + 1))
      if onFloor ∨ onGrain then
        gs.set i { g with settled := true, vx := 0, vy := 0 }
      else gs
    else gs
  else gs

/-- Embedding of `_updateGrain` for the grain at index `i`: integration,
wall collisions in wall order, floor, ceiling, the grain-to-grain loop over
the neighbors (computed once, after integration, from the grid), then the
settling check over that same neighbor list. -/
noncomputable def updateGrain (geo : HourglassGeometry)
    (grid : ℤ × ℤ → List ℕ) (dt : ℝ) (gs : List Grain) (i : ℕ) : List Grain :=
  let g1 := integrateGrain dt (gs.getD i default)
  let g2 := geo.walls.foldl collideWall g1
  let g3 := floorCollide geo g2
  let g4 := ceilingCollide geo g3
  let gs1 := gs.set i g4
  let nearby := getNearby grid gs1 i
  let gs2 := nearby.foldl (fun acc j => pairStep i j acc) gs1
  settleCheck geo nearby i gs2

/-- The per-grain loop of `update`: grains are visited in index order, and
the active/settled test is made on the state current when the grain's turn
comes (earlier iterations may have moved or settled later grains). -/
noncomputable def updateLoop (geo : HourglassGeometry)
    (grid : ℤ × ℤ → List ℕ) (dt : ℝ) (gs : List Grain) : List Grain :=
  (List.range gs.length).foldl (fun acc i =>
    let g := acc.getD i default
    if g.active ∧ ¬g.settled then updateGrain geo grid dt acc i else acc) gs

/-- The body of `update(dt, timerElapsedMs)` once the geometry guard has
passed: guard on a nonempty grain list, record elapsed time, run the release
while-loop (`(target - releasedCount).toNat` iterations, see
`targetReleased`), build the spatial grid, then run the physics loop. -/
noncomputable def ParticleSystem.updateBody (geo : HourglassGeometry)
    (rand : ℕ → ℝ) (dt : ℝ) (e : ℚ) (s : ParticleSystem) : ParticleSystem :=
  if s.grains.length = 0 then s
  else
    let s1 := { s with elapsedMs := e }
    let n := (s1.targetReleased e - (s1.releasedCount : ℤ)).toNat
    let s2 := ParticleSystem.releaseLoop geo rand n 0 s1
    let grid := buildGrid s2.grains
    { s2 with grains := updateLoop geo grid dt s2.grains }

/-- Embedding of `update(dt, timerElapsedMs)`: a no-op without geometry,
otherwise `updateBody`. -/
noncomputable def ParticleSystem.update (rand : ℕ → ℝ) (dt : ℝ) (e : ℚ)
    (s : ParticleSystem) : ParticleSystem :=
  match s.geometry with
  | none => s
  | some geo => s.updateBody geo rand dt e

/-- Embedding of `explode()`: every settled active grain is unsettled and
kicked. In the source each qualifying grain draws two fresh `Math.random()`
values in order (vy then vx); here the grain at index `i` reads the stream
at `2*i` and `2*i+1`, which ranges over the same outcomes. -/
noncomputable def ParticleSystem.explode (rand : ℕ → ℝ)
    (s : ParticleSystem) : ParticleSystem :=
  { s with grains := s.grains.mapIdx (fun i g =>
      if g.settled ∧ g.active then
        { g with settled := false,
                 vy := -(200 + rand (2 * i) * 300),
                 vx := (rand (2 * i + 1) - 0.5) * 200 }
      else g) }

/-- The public operations of the particle system, for statements about
arbitrary call sequences. -/
inductive Op where
  | opInit (rand : ℕ → ℝ) (totalMs : ℚ)
  | opUpdate (rand : ℕ → ℝ) (dt : ℝ) (e : ℚ)
  | opExplode (rand : ℕ → ℝ)
  | opReset
  | opSetGeometry (geo : HourglassGeometry)

/-- Apply one public operation. -/
noncomputable def applyOp (s : ParticleSystem) : Op → ParticleSystem
  | Op.opInit rand totalMs => s.init rand totalMs
  | Op.opUpdate rand dt e => s.update rand dt e
  | Op.opExplode rand => s.explode rand
  | Op.opReset => s.reset
  | Op.opSetGeometry geo => s.setGeometry geo

/-- Run a sequence of public operations. -/
noncomputable def runOps (s : ParticleSystem) (ops : List Op) : ParticleSystem :=
  ops.foldl applyOp s

/-- The number of active grains. -/
def activeCount (s : ParticleSystem) : ℕ :=
  (s.grains.map Grain.active).count true

/-- The list of colorOffset fields, in grain order. -/
def colorsOf (gs : List Grain) : List ℝ :=
  gs.map Grain.colorOffset

/-- The list of active flags, in grain order. -/
def activesOf (gs : List Grain) : List Bool :=
  gs.map Grain.active

/-- The pair of fields (colorOffset, active), which the physics pass never
writes. -/
def caOf (g : Grain) : ℝ × Bool :=
  (g.colorOffset, g.active)

/-- A concrete geometry used to instantiate the theorems: neck from x = 0 to
x = 10, neck band y ∈ [100, 120], ceiling at y = 0, floor at y = 220, one
vertical wall. -/
def geo0 : HourglassGeometry :=
  { walls := [{ x1 := 0, y1 := 0, x2 := 0, y2 := 220 }],
    neckLeft := 0, neckRight := 10, neckTopY := 100, neckBottomY := 120,
    bottomFloorY := 220, topCeilingY := 0 }

/-- A concrete random stream, constantly one half. -/
noncomputable def rand0 : ℕ → ℝ := fun _ => (1 : ℝ) / 2

/-- A concrete wall segment for the wall-collision claims: the horizontal
segment from (0, 0) to (10, 0). -/
def wEx : LineSegment := { x1 := 0, y1 := 0, x2 := 10, y2 := 0 }

/-- A concrete grain overlapping `wEx` from above while moving straight
down into it. -/
def gEx : Grain :=
  { x := 5, y := 1, vx := 0, vy := -10, radius := 2.5, color := "",
    colorOffset := 0, settled := false, active := true }

/-- Modelled from the spec (for the claim C6 comparison only): the standard
cosine ease, cosEase t = (1 - cos(π t)) / 2. -/
noncomputable def cosEase (t : ℝ) : ℝ :=
  (1 - Real.cos (Real.pi * t)) / 2

/-- Modelled from the spec (for the claim C6 comparison only): the
width-at-height function as the spec words it, easing from neck width to
max width via sqrt(cosine-ease(t)) in each bulb. -/
noncomputable def specWidthAtY (geo : HourglassGeometry) (y : ℝ) : ℝ :=
  let neckWidth := geo.neckRight - geo.neckLeft
  if geo.neckTopY ≤ y ∧ y ≤ geo.neckBottomY then neckWidth
  else if y < geo.neckTopY then
    let t := (geo.neckTopY - y) / (geo.neckTopY - geo.topCeilingY)
    let maxWidth := (geo.neckRight - geo.neckLeft) + 120
    neckWidth + (maxWidth - neckWidth) * Real.sqrt (cosEase (min 1 t))
  else
    let t := (y - geo.neckBottomY) / (geo.bottomFloorY - geo.neckBottomY)
    let maxWidth := (geo.neckRight - geo.neckLeft) + 120
    neckWidth + (maxWidth - neckWidth) * Real.sqrt (cosEase (min 1 t))

/-- A concrete initialized-looking state: one grain, geometry set, two total
grains, interval 500ms, duration 1000ms. -/
noncomputable def s1ex : ParticleSystem :=
  { grains := [default], geometry := some geo0, totalGrains := 2,
    releasedCount := 0, releaseInterval := 500, lastReleaseTime := 0,
    elapsedMs := 0, totalMs := 1000 }

/-- A settled, active grain resting low in the bottom bulb of `geo0`. -/
def gSet : Grain :=
  { x := 5, y := 200, vx := 0, vy := 0, radius := 2.5, color := "",
    colorOffset := 0, settled := true, active := true }

/-- A state holding the single settled active grain `gSet`. -/
noncomputable def s2ex : ParticleSystem :=
  { grains := [gSet], geometry := some geo0, totalGrains := 1,
    releasedCount := 1, releaseInterval := 500, lastReleaseTime := 0,
    elapsedMs := 0, totalMs := 500 }

/-- Invariant of states reachable while no geometry was ever set: the
observable simulation state is empty. -/
def NoGeomInv (s : ParticleSystem) : Prop :=
  s.geometry = none → s.grains = [] ∧ s.totalGrains = 0 ∧ s.releasedCount = 0

/-- The operations claim C9 quantifies over: update and explode calls. -/
def PhysicsOp : Op → Prop
  | Op.opUpdate _ _ _ => True
  | Op.opExplode _ => True
  | _ => False

/-- The counting invariant of claim C10: the number of active grains equals
the released count, the released count is within the total, the grain list
length is the total, and the total is 0 while no geometry is set. -/
def CountInv (s : ParticleSystem) : Prop :=
  activeCount s = s.releasedCount ∧ s.releasedCount ≤ s.totalGrains ∧
  s.grains.length = s.totalGrains ∧ (s.geometry = none → s.totalGrains = 0)

theorem init_of_geometry_some (s : ParticleSystem) (geo : HourglassGeometry)
    (rand : ℕ → ℝ) (totalMs : ℚ) (h : s.geometry = some geo) :
    s.init rand totalMs = { s with
      grains := (List.range (grainCountFor totalMs)).map (initGrain geo rand),
      releasedCount := 0, lastReleaseTime := 0, elapsedMs := 0,
      totalMs := totalMs, totalGrains := grainCountFor totalMs,
      releaseInterval := totalMs / (grainCountFor totalMs : ℚ) } := by
  unfold ParticleSystem.init
  simp only [h]

theorem init_of_geometry_none (s : ParticleSystem)
    (rand : ℕ → ℝ) (totalMs : ℚ) (h : s.geometry = none) :
    s.init rand totalMs = { s with
      grains := ([] : List Grain), releasedCount := 0,
      lastReleaseTime := 0, elapsedMs := 0 } := by
  unfold ParticleSystem.init
  simp only [h]

theorem grainCountFor_cast (totalMs : ℚ) :
    (grainCountFor totalMs : ℤ) = min 400 (max 200 ⌊totalMs / 500⌋) := by
  unfold grainCountFor
  have h : (0 : ℤ) ≤ min 400 (max 200 ⌊totalMs / 500⌋) :=
    le_min (by norm_num) (le_trans (by norm_num) (le_max_left 200 _))
  exact Int.toNat_of_nonneg h

theorem releaseNextGrain_releasedCount (geo : HourglassGeometry)
    (r1 r2 r3 : ℝ) (s : ParticleSystem) :
    (s.releaseNextGrain geo r1 r2 r3).releasedCount = s.releasedCount + 1 := by
  unfold ParticleSystem.releaseNextGrain
  cases h : bestInactive s.grains with
  | none => rfl
  | some jy => cases jy with
    | mk j y => rfl

theorem releaseNextGrain_fields (geo : HourglassGeometry)
    (r1 r2 r3 : ℝ) (s : ParticleSystem) :
    (s.releaseNextGrain geo r1 r2 r3).totalGrains = s.totalGrains ∧
    (s.releaseNextGrain geo r1 r2 r3).releaseInterval = s.releaseInterval ∧
    (s.releaseNextGrain geo r1 r2 r3).geometry = s.geometry ∧
    (s.releaseNextGrain geo r1 r2 r3).totalMs = s.totalMs ∧
    (s.releaseNextGrain geo r1 r2 r3).elapsedMs = s.elapsedMs ∧
    (s.releaseNextGrain geo r1 r2 r3).grains.length = s.grains.length := by
  unfold ParticleSystem.releaseNextGrain
  cases h : bestInactive s.grains with
  | none => exact ⟨rfl, rfl, rfl, rfl, rfl, rfl⟩
  | some jy => cases jy with
    | mk j y => exact ⟨rfl, rfl, rfl, rfl, rfl, by simp⟩

theorem releaseLoop_releasedCount (geo : HourglassGeometry) (rand : ℕ → ℝ) :
    ∀ (n j : ℕ) (s : ParticleSystem),
    (ParticleSystem.releaseLoop geo rand n j s).releasedCount
      = s.releasedCount + n := by
  intro n
  induction n with
  | zero => intro j s; rfl
  | succ m ih =>
    intro j s
    rw [ParticleSystem.releaseLoop, ih, releaseNextGrain_releasedCount]
    omega

theorem releaseLoop_fields (geo : HourglassGeometry) (rand : ℕ → ℝ) :
    ∀ (n j : ℕ) (s : ParticleSystem),
    (ParticleSystem.releaseLoop geo rand n j s).totalGrains = s.totalGrains ∧
    (ParticleSystem.releaseLoop geo rand n j s).releaseInterval = s.releaseInterval ∧
    (ParticleSystem.releaseLoop geo rand n j s).geometry = s.geometry ∧
    (ParticleSystem.releaseLoop geo rand n j s).totalMs = s.totalMs ∧
    (ParticleSystem.releaseLoop geo rand n j s).grains.length = s.grains.length := by
  intro n
  induction n with
  | zero => intro j s; exact ⟨rfl, rfl, rfl, rfl, rfl⟩
  | succ m ih =>
    intro j s
    rw [ParticleSystem.releaseLoop]
    obtain ⟨h1, h2, h3, h4, h5⟩ := ih (j + 1)
      (s.releaseNextGrain geo (rand (3 * j)) (rand (3 * j + 1)) (rand (3 * j + 2)))
    obtain ⟨g1, g2, g3, g4, g5, g6⟩ := releaseNextGrain_fields geo
      (rand (3 * j)) (rand (3 * j + 1)) (rand (3 * j + 2)) s
    exact ⟨h1.trans g1, h2.trans g2, h3.trans g3, h4.trans g4, h5.trans g6⟩

theorem targetReleased_elapsed (s : ParticleSystem) (e e2 : ℚ) :
    ({ s with elapsedMs := e2 } : ParticleSystem).targetReleased e
      = s.targetReleased e := rfl

theorem update_of_some (s : ParticleSystem) (geo : HourglassGeometry)
    (rand : ℕ → ℝ) (dt : ℝ) (e : ℚ) (hgeo : s.geometry = some geo) :
    s.update rand dt e = s.updateBody geo rand dt e := by
  unfold ParticleSystem.update
  simp only [hgeo]

theorem update_of_geometry_none (s : ParticleSystem) (rand : ℕ → ℝ)
    (dt : ℝ) (e : ℚ) (h : s.geometry = none) : s.update rand dt e = s := by
  unfold ParticleSystem.update
  simp only [h]

theorem update_releasedCount_eq (s : ParticleSystem) (geo : HourglassGeometry)
    (rand : ℕ → ℝ) (dt : ℝ) (e : ℚ)
    (hgeo : s.geometry = some geo) (hne : s.grains.length ≠ 0) :
    ((s.update rand dt e).releasedCount : ℤ)
      = max (s.releasedCount : ℤ) (s.targetReleased e) := by
  rw [update_of_some s geo rand dt e hgeo]
  unfold ParticleSystem.updateBody
  rw [if_neg hne]
  show ((ParticleSystem.releaseLoop geo rand _ 0 _).releasedCount : ℤ) = _
  rw [releaseLoop_releasedCount]
  simp only [ParticleSystem.targetReleased]
  omega

theorem update_releasedCount_mono (s : ParticleSystem)
    (rand : ℕ → ℝ) (dt : ℝ) (e : ℚ) :
    s.releasedCount ≤ (s.update rand dt e).releasedCount := by
  cases hg : s.geometry with
  | none => rw [update_of_geometry_none s rand dt e hg]
  | some geo =>
    rw [update_of_some s geo rand dt e hg]
    unfold ParticleSystem.updateBody
    by_cases hne : s.grains.length = 0
    · rw [if_pos hne]
    · rw [if_neg hne]
      show s.releasedCount ≤ (ParticleSystem.releaseLoop geo rand _ 0 _).releasedCount
      rw [releaseLoop_releasedCount]
      exact Nat.le_add_right _ _

/-- C2: for every totalDurationMs passed to init with geometry set, the
resulting totalGrains equals clamp(floor(totalDurationMs / 500), 200, 400);
in particular 1000ms yields 200 grains, 150000ms yields 300, and 600000ms
yields 400. -/
theorem C2_grain_count (s : ParticleSystem) (geo : HourglassGeometry)
    (rand : ℕ → ℝ) (totalMs : ℚ) (h : s.geometry = some geo) :
    ((s.init rand totalMs).totalGrains : ℤ)
      = min 400 (max 200 ⌊totalMs / 500⌋) ∧
    (s.init rand 1000).totalGrains = 200 ∧
    (s.init rand 150000).totalGrains = 300 ∧
    (s.init rand 600000).totalGrains = 400 := by
  rw [init_of_geometry_some s geo rand totalMs h,
      init_of_geometry_some s geo rand 1000 h,
      init_of_geometry_some s geo rand 150000 h,
      init_of_geometry_some s geo rand 600000 h]
  refine ⟨grainCountFor_cast totalMs, ?_, ?_, ?_⟩ <;>
    · norm_num [grainCountFor]
      omega

/-- Witness for C2 at a concrete geometry and duration. -/
theorem C2_grain_count_witness :
    (initialState.setGeometry geo0).geometry = some geo0 ∧
    (((initialState.setGeometry geo0).init rand0 150000).totalGrains : ℤ)
      = min 400 (max 200 ⌊(150000 : ℚ) / 500⌋) :=
  ⟨rfl, (C2_grain_count (initialState.setGeometry geo0) geo0 rand0 150000 rfl).1⟩

/-- C3 counterexample: after init(0) with geometry set, the release interval
is exactly 0 — it is not floored at any positive epsilon, contrary to the
claim. -/
theorem C3_no_epsilon_floor_counterexample :
    ((initialState.setGeometry geo0).init rand0 0).releaseInterval = 0 ∧
    ¬ (0 < ((initialState.setGeometry geo0).init rand0 0).releaseInterval) := by
  rw [init_of_geometry_some (initialState.setGeometry geo0) geo0 rand0 0 rfl]
  norm_num [grainCountFor]

/-- C3 amended: when init is called with totalDurationMs ≤ 0 (geometry set),
the grain count still clamps to the 200 minimum, but the release interval is
simply totalDurationMs / 200 with no positive floor (0 when the duration is
0). A subsequent update call still completes without faulting: with a zero
interval the JS division yields Infinity or NaN, so the release target
degenerates to all grains when elapsed time is positive and to no releases
otherwise. -/
theorem C3_zero_duration_behavior (s : ParticleSystem) (geo : HourglassGeometry)
    (rand : ℕ → ℝ) (totalMs : ℚ) (hgeo : s.geometry = some geo)
    (hms : totalMs ≤ 0) :
    (s.init rand totalMs).totalGrains = 200 ∧
    (s.init rand totalMs).releaseInterval = totalMs / 200 ∧
    (∀ (s2 : ParticleSystem) (rand2 : ℕ → ℝ) (dt : ℝ) (e : ℚ),
      s2.geometry = some geo → s2.grains.length ≠ 0 →
      s2.releaseInterval = 0 → s2.releasedCount ≤ s2.totalGrains →
      ((0 < e → (s2.update rand2 dt e).releasedCount = s2.totalGrains) ∧
       (e ≤ 0 → (s2.update rand2 dt e).releasedCount = s2.releasedCount))) := by
  rw [init_of_geometry_some s geo rand totalMs hgeo]
  have hcount : grainCountFor totalMs = 200 := by
    unfold grainCountFor
    have hfloor : ⌊totalMs / 500⌋ ≤ 0 := by
      apply Int.floor_nonpos
      apply div_nonpos_of_nonpos_of_nonneg hms
      norm_num
    omega
  refine ⟨hcount, by rw [hcount]; norm_num, ?_⟩
  intro s2 rand2 dt e hgeo2 hne2 hzero hle2
  have hcnt := update_releasedCount_eq s2 geo rand2 dt e hgeo2 hne2
  constructor
  · intro he
    rw [ParticleSystem.targetReleased, if_pos hzero, if_pos he] at hcnt
    omega
  · intro he
    rw [ParticleSystem.targetReleased, if_pos hzero,
        if_neg (by exact not_lt.mpr he)] at hcnt
    omega

/-- Witness for C3 amended at a concrete geometry, duration 0, and a
concrete one-grain state with zero interval. -/
theorem C3_zero_duration_behavior_witness :
    (initialState.setGeometry geo0).geometry = some geo0 ∧ (0 : ℚ) ≤ 0 ∧
    ((initialState.setGeometry geo0).init rand0 0).totalGrains = 200 := by
  refine ⟨rfl, le_refl 0, ?_⟩
  exact (C3_zero_duration_behavior (initialState.setGeometry geo0) geo0 rand0 0
    rfl (le_refl 0)).1

/-- C1: for an initialized system (geometry set, grains present, positive
duration, released count within bounds), after update(dt, e) the released
count equals max(pre, min(totalGrains, floor(e / releaseInterval))); it is
non-decreasing within the call and across a successive update call, and it
equals totalGrains once e ≥ totalDurationMs, regardless of overshoot. -/
theorem C1_release_schedule (s : ParticleSystem) (geo : HourglassGeometry)
    (rand : ℕ → ℝ) (dt : ℝ) (e : ℚ)
    (hgeo : s.geometry = some geo) (hne : s.grains.length ≠ 0)
    (hint : s.releaseInterval = s.totalMs / (s.totalGrains : ℚ))
    (hpos : 0 < s.totalMs) (htot : 0 < s.totalGrains)
    (hcnt : s.releasedCount ≤ s.totalGrains) :
    (((s.update rand dt e).releasedCount : ℤ)
        = max (s.releasedCount : ℤ)
            (min (s.totalGrains : ℤ) ⌊e / s.releaseInterval⌋)) ∧
    s.releasedCount ≤ (s.update rand dt e).releasedCount ∧
    (∀ (rand2 : ℕ → ℝ) (dt2 : ℝ) (e2 : ℚ),
      (s.update rand dt e).releasedCount
        ≤ ((s.update rand dt e).update rand2 dt2 e2).releasedCount) ∧
    (s.totalMs ≤ e → (s.update rand dt e).releasedCount = s.totalGrains) := by
  have htotQ : (0 : ℚ) < (s.totalGrains : ℚ) := by exact_mod_cast htot
  have hintpos : 0 < s.releaseInterval := by
    rw [hint]; exact div_pos hpos htotQ
  have hmain := update_releasedCount_eq s geo rand dt e hgeo hne
  rw [ParticleSystem.targetReleased, if_neg hintpos.ne'] at hmain
  refine ⟨hmain, update_releasedCount_mono s rand dt e,
    fun rand2 dt2 e2 => update_releasedCount_mono _ rand2 dt2 e2, ?_⟩
  intro he
  have hfloor : (s.totalGrains : ℤ) ≤ ⌊e / s.releaseInterval⌋ := by
    apply Int.le_floor.mpr
    rw [hint, div_div_eq_mul_div]
    rw [le_div_iff₀ hpos]
    push_cast
    calc (s.totalGrains : ℚ) * s.totalMs
        = s.totalMs * (s.totalGrains : ℚ) := by ring
      _ ≤ e * (s.totalGrains : ℚ) :=
          mul_le_mul_of_nonneg_right he (le_of_lt htotQ)
  omega

/-- Witness for C1 at a concrete state and elapsed time 1000 ≥ totalMs. -/
theorem C1_release_schedule_witness :
    s1ex.geometry = some geo0 ∧ s1ex.grains.length ≠ 0 ∧
    s1ex.releaseInterval = s1ex.totalMs / (s1ex.totalGrains : ℚ) ∧
    0 < s1ex.totalMs ∧ 0 < s1ex.totalGrains ∧
    s1ex.releasedCount ≤ s1ex.totalGrains ∧
    (s1ex.totalMs ≤ 1000 →
      (s1ex.update rand0 1 1000).releasedCount = s1ex.totalGrains) :=
  ⟨rfl, by norm_num [s1ex], by norm_num [s1ex], by norm_num [s1ex],
   by norm_num [s1ex], by norm_num [s1ex],
   (C1_release_schedule s1ex geo0 rand0 1 1000 rfl (by norm_num [s1ex])
     (by norm_num [s1ex]) (by norm_num [s1ex]) (by norm_num [s1ex])
     (by norm_num [s1ex])).2.2.2⟩

theorem init_geometry (s : ParticleSystem) (rand : ℕ → ℝ) (t : ℚ) :
    (s.init rand t).geometry = s.geometry := by
  cases hg : s.geometry with
  | none =>
    rw [init_of_geometry_none s rand t hg]
    exact hg
  | some geo =>
    rw [init_of_geometry_some s geo rand t hg]
    exact hg

theorem update_const_fields (s : ParticleSystem) (rand : ℕ → ℝ)
    (dt : ℝ) (e : ℚ) :
    (s.update rand dt e).geometry = s.geometry ∧
    (s.update rand dt e).totalGrains = s.totalGrains ∧
    (s.update rand dt e).releaseInterval = s.releaseInterval ∧
    (s.update rand dt e).totalMs = s.totalMs := by
  cases hg : s.geometry with
  | none =>
    rw [update_of_geometry_none s rand dt e hg]
    exact ⟨hg, rfl, rfl, rfl⟩
  | some geo =>
    rw [update_of_some s geo rand dt e hg]
    unfold ParticleSystem.updateBody
    by_cases hne : s.grains.length = 0
    · rw [if_pos hne]
      exact ⟨hg, rfl, rfl, rfl⟩
    · rw [if_neg hne]
      obtain ⟨h1, h2, h3, h4, h5⟩ := releaseLoop_fields geo rand
        ((({ s with elapsedMs := e } : ParticleSystem).targetReleased e
          - (({ s with elapsedMs := e } : ParticleSystem).releasedCount : ℤ)).toNat) 0
        { s with elapsedMs := e }
      exact ⟨h3.trans hg, h1, h2, h4⟩

theorem explode_const_fields (s : ParticleSystem) (rand : ℕ → ℝ) :
    (s.explode rand).geometry = s.geometry ∧
    (s.explode rand).totalGrains = s.totalGrains ∧
    (s.explode rand).releasedCount = s.releasedCount ∧
    (s.explode rand).releaseInterval = s.releaseInterval ∧
    (s.explode rand).totalMs = s.totalMs :=
  ⟨rfl, rfl, rfl, rfl, rfl⟩

theorem noGeomInv_applyOp (s : ParticleSystem) (op : Op)
    (h : NoGeomInv s) : NoGeomInv (applyOp s op) := by
  cases op with
  | opInit rand totalMs =>
    intro hg
    have hsg : s.geometry = none := by
      rw [show (applyOp s (Op.opInit rand totalMs)) = s.init rand totalMs from rfl,
          init_geometry] at hg
      exact hg
    show ((s.init rand totalMs).grains = [] ∧
      (s.init rand totalMs).totalGrains = 0 ∧
      (s.init rand totalMs).releasedCount = 0)
    rw [init_of_geometry_none s rand totalMs hsg]
    exact ⟨rfl, (h hsg).2.1, rfl⟩
  | opUpdate rand dt e =>
    intro hg
    have hsg : s.geometry = none := by
      rw [show (applyOp s (Op.opUpdate rand dt e)) = s.update rand dt e from rfl,
          (update_const_fields s rand dt e).1] at hg
      exact hg
    show ((s.update rand dt e).grains = [] ∧
      (s.update rand dt e).totalGrains = 0 ∧
      (s.update rand dt e).releasedCount = 0)
    rw [update_of_geometry_none s rand dt e hsg]
    exact h hsg
  | opExplode rand =>
    intro hg
    have hsg : s.geometry = none := hg
    obtain ⟨h1, h2, h3⟩ := h hsg
    refine ⟨?_, h2, h3⟩
    show (s.explode rand).grains = []
    unfold ParticleSystem.explode
    rw [h1]
    rfl
  | opReset =>
    intro _
    exact ⟨rfl, rfl, rfl⟩
  | opSetGeometry geo =>
    intro hg
    exact absurd hg (by simp [applyOp, ParticleSystem.setGeometry])

theorem noGeomInv_runOps_aux (ops : List Op) :
    ∀ s : ParticleSystem, NoGeomInv s → NoGeomInv (runOps s ops) := by
  induction ops with
  | nil => intro s h; exact h
  | cons op rest ih =>
    intro s h
    exact ih (applyOp s op) (noGeomInv_applyOp s op h)

theorem noGeomInv_runOps (ops : List Op) :
    NoGeomInv (runOps initialState ops) :=
  noGeomInv_runOps_aux ops initialState (fun _ => ⟨rfl, rfl, rfl⟩)

/-- C4: in every state reachable without geometry having been set, init,
update and explode are silent no-ops on the observable state (grains,
totalGrains, releasedCount). -/
theorem C4_no_geometry_noop (ops : List Op) (s : ParticleSystem)
    (hs : s = runOps initialState ops) (hgeo : s.geometry = none)
    (rand : ℕ → ℝ) (totalMs : ℚ) (dt : ℝ) (e : ℚ) :
    ((s.init rand totalMs).grains = s.grains ∧
     (s.init rand totalMs).totalGrains = s.totalGrains ∧
     (s.init rand totalMs).releasedCount = s.releasedCount) ∧
    ((s.update rand dt e).grains = s.grains ∧
     (s.update rand dt e).totalGrains = s.totalGrains ∧
     (s.update rand dt e).releasedCount = s.releasedCount) ∧
    ((s.explode rand).grains = s.grains ∧
     (s.explode rand).totalGrains = s.totalGrains ∧
     (s.explode rand).releasedCount = s.releasedCount) := by
  have hinv : NoGeomInv s := by
    rw [hs]; exact noGeomInv_runOps ops
  obtain ⟨hgr, htot, hrel⟩ := hinv hgeo
  rw [update_of_geometry_none s rand dt e hgeo,
      init_of_geometry_none s rand totalMs hgeo]
  refine ⟨⟨hgr.symm, rfl, hrel.symm⟩, ⟨rfl, rfl, rfl⟩, ⟨?_, rfl, rfl⟩⟩
  show (s.explode rand).grains = s.grains
  unfold ParticleSystem.explode
  rw [hgr]
  rfl

/-- Witness for C4: the freshly constructed state (empty operation list),
which has no geometry. -/
theorem C4_no_geometry_noop_witness :
    initialState = runOps initialState [] ∧
    initialState.geometry = none ∧
    (initialState.update rand0 1 1000).grains = initialState.grains :=
  ⟨rfl, rfl,
   (C4_no_geometry_noop [] initialState rfl rfl rand0 0 1 1000).2.1.1⟩

theorem get?_mapIdx_of_get? {α : Type} (gs : List α) (f : ℕ → α → α)
    (i : ℕ) (g : α) (h : gs.get? i = some g) :
    (gs.mapIdx f).get? i = some (f i g) := by
  obtain ⟨hi, hget⟩ := List.get?_eq_some.mp h
  have hi2 : i < (gs.mapIdx f).length := by
    rw [List.length_mapIdx]; exact hi
  rw [List.get?_eq_get hi2, List.get_mapIdx gs f i hi, hget]

/-- C7: explode clears settled on every grain that is both active and
settled, giving it a strictly negative vy in the band (-500, -200] and a
lateral vx in [-100, 100), leaving its other fields intact; every grain not
currently active-and-settled is left entirely unchanged; and if at least one
active settled grain existed before the call, some grain has negative vy
immediately after. -/
theorem C7_explode_kicks_settled (s : ParticleSystem) (rand : ℕ → ℝ)
    (hr : ∀ n, 0 ≤ rand n ∧ rand n < 1) :
    (∀ (i : ℕ) (g : Grain), s.grains.get? i = some g →
      ((g.active = true ∧ g.settled = true) →
        ∃ g2, (s.explode rand).grains.get? i = some g2 ∧
          g2.settled = false ∧ g2.active = true ∧
          g2.vy < 0 ∧ -500 < g2.vy ∧ g2.vy ≤ -200 ∧
          -100 ≤ g2.vx ∧ g2.vx < 100 ∧
          g2.x = g.x ∧ g2.y = g.y ∧ g2.radius = g.radius ∧
          g2.colorOffset = g.colorOffset) ∧
      (¬(g.active = true ∧ g.settled = true) →
        (s.explode rand).grains.get? i = some g)) ∧
    ((∃ g ∈ s.grains, g.active = true ∧ g.settled = true) →
      ∃ (j : ℕ) (g2 : Grain),
        (s.explode rand).grains.get? j = some g2 ∧ g2.vy < 0) := by
  have hmain : ∀ (i : ℕ) (g : Grain), s.grains.get? i = some g →
      ((g.active = true ∧ g.settled = true) →
        ∃ g2, (s.explode rand).grains.get? i = some g2 ∧
          g2.settled = false ∧ g2.active = true ∧
          g2.vy < 0 ∧ -500 < g2.vy ∧ g2.vy ≤ -200 ∧
          -100 ≤ g2.vx ∧ g2.vx < 100 ∧
          g2.x = g.x ∧ g2.y = g.y ∧ g2.radius = g.radius ∧
          g2.colorOffset = g.colorOffset) ∧
      (¬(g.active = true ∧ g.settled = true) →
        (s.explode rand).grains.get? i = some g) := by
    intro i g hg
    have hmap := get?_mapIdx_of_get? s.grains
      (fun i g => if g.settled ∧ g.active then
        { g with settled := false,
                 vy := -(200 + rand (2 * i) * 300),
                 vx := (rand (2 * i + 1) - 0.5) * 200 }
      else g) i g hg
    simp only at hmap
    constructor
    · intro ⟨ha, hs⟩
      obtain ⟨hr1a, hr1b⟩ := hr (2 * i)
      obtain ⟨hr2a, hr2b⟩ := hr (2 * i + 1)
      rw [if_pos (⟨hs, ha⟩ : g.settled = true ∧ g.active = true)] at hmap
      refine ⟨_, hmap, rfl, ha, ?_, ?_, ?_, ?_, ?_, rfl, rfl, rfl, rfl⟩
      · show -(200 + rand (2 * i) * 300) < 0
        linarith
      · show -500 < -(200 + rand (2 * i) * 300)
        linarith
      · show -(200 + rand (2 * i) * 300) ≤ -200
        linarith
      · show -100 ≤ (rand (2 * i + 1) - 0.5) * 200
        linarith
      · show (rand (2 * i + 1) - 0.5) * 200 < 100
        linarith
    · intro hnot
      have hcond : ¬(g.settled = true ∧ g.active = true) := by
        intro ⟨h1, h2⟩; exact hnot ⟨h2, h1⟩
      rw [if_neg hcond] at hmap
      exact hmap
  refine ⟨hmain, ?_⟩
  intro ⟨g, hmem, ha, hs⟩
  obtain ⟨n, hget⟩ := List.get_of_mem hmem
  have hget? : s.grains.get? n.1 = some g := by
    rw [List.get?_eq_get n.2, hget]
  obtain ⟨g2, hg2, _, _, hvy, _⟩ := (hmain n.1 g hget?).1 ⟨ha, hs⟩
  exact ⟨n.1, g2, hg2, hvy⟩

/-- Witness for C7 on a one-grain state whose grain is active and settled. -/
theorem C7_explode_kicks_settled_witness :
    (∀ n, 0 ≤ rand0 n ∧ rand0 n < 1) ∧
    ((∃ g ∈ s2ex.grains, g.active = true ∧ g.settled = true) →
      ∃ (j : ℕ) (g2 : Grain),
        (s2ex.explode rand0).grains.get? j = some g2 ∧ g2.vy < 0) :=
  ⟨fun n => by norm_num [rand0],
   (C7_explode_kicks_settled s2ex rand0 (fun n => by norm_num [rand0])).2⟩

/-- C8: immediately after init(totalDurationMs) with geometry set, every
created grain has active = false, settled = true, y ≤ neckTopY, and
colorOffset in [-1, 1]. -/
theorem C8_init_grain_state (s : ParticleSystem) (geo : HourglassGeometry)
    (rand : ℕ → ℝ) (totalMs : ℚ) (hgeo : s.geometry = some geo)
    (hr : ∀ n, 0 ≤ rand n ∧ rand n < 1) :
    ∀ g ∈ (s.init rand totalMs).grains,
      g.active = false ∧ g.settled = true ∧ g.y ≤ geo.neckTopY ∧
      -1 ≤ g.colorOffset ∧ g.colorOffset ≤ 1 := by
  intro g hg
  rw [init_of_geometry_some s geo rand totalMs hgeo] at hg
  simp only [List.mem_map, List.mem_range] at hg
  obtain ⟨i, _, rfl⟩ := hg
  obtain ⟨hya, hyb⟩ := hr (4 * i + 1)
  obtain ⟨hca, hcb⟩ := hr (4 * i + 3)
  refine ⟨rfl, rfl, ?_, ?_, ?_⟩
  · show min (geo.neckTopY - 12 - ((i / 20 : ℕ) : ℝ) * (GRAIN_RADIUS * 2.2))
        (geo.topCeilingY + (geo.neckTopY - geo.topCeilingY) * 0.9)
        + (rand (4 * i + 1) - 0.5) * 2 ≤ geo.neckTopY
    have hmin : min (geo.neckTopY - 12 - ((i / 20 : ℕ) : ℝ) * (GRAIN_RADIUS * 2.2))
        (geo.topCeilingY + (geo.neckTopY - geo.topCeilingY) * 0.9)
        ≤ geo.neckTopY - 12 - ((i / 20 : ℕ) : ℝ) * (GRAIN_RADIUS * 2.2) :=
      min_le_left _ _
    have hrow : (0 : ℝ) ≤ ((i / 20 : ℕ) : ℝ) * (GRAIN_RADIUS * 2.2) := by
      have h1 : (0 : ℝ) ≤ ((i / 20 : ℕ) : ℝ) := Nat.cast_nonneg _
      have h2 : (0 : ℝ) ≤ GRAIN_RADIUS * 2.2 := by norm_num [GRAIN_RADIUS]
      exact mul_nonneg h1 h2
    linarith
  · show -1 ≤ (rand (4 * i + 3) - 0.5) * 2
    linarith
  · show (rand (4 * i + 3) - 0.5) * 2 ≤ 1
    linarith

/-- Witness for C8 at the concrete geometry and duration 1000ms. -/
theorem C8_init_grain_state_witness :
    (initialState.setGeometry geo0).geometry = some geo0 ∧
    (∀ n, 0 ≤ rand0 n ∧ rand0 n < 1) ∧
    (∀ g ∈ ((initialState.setGeometry geo0).init rand0 1000).grains,
      g.active = false ∧ g.settled = true ∧ g.y ≤ geo0.neckTopY ∧
      -1 ≤ g.colorOffset ∧ g.colorOffset ≤ 1) :=
  ⟨rfl, fun n => by norm_num [rand0],
   C8_init_grain_state (initialState.setGeometry geo0) geo0 rand0 1000 rfl
     (fun n => by norm_num [rand0])⟩

theorem fmap_set_get? {α : Type} (f : Grain → α) (gs : List Grain)
    (i k : ℕ) (g2 : Grain) (hg : f g2 = f (gs.getD i default)) :
    ((gs.set i g2).get? k).map f = (gs.get? k).map f := by
  by_cases hik : i = k
  · subst hik
    rw [List.get?_set_eq g2 i gs]
    cases hq : gs.get? i with
    | none => rfl
    | some a =>
      have ha : gs.getD i default = a := by
        rw [List.getD_eq_getD_get?, hq]
        rfl
      show some (f g2) = some (f a)
      rw [hg, ha]
  · rw [List.get?_set_ne g2 gs hik]

theorem fmap_set_set_get? {α : Type} (f : Grain → α) (gs : List Grain)
    (i j k : ℕ) (g2 o1 : Grain)
    (hg : f g2 = f (gs.getD i default))
    (ho : f o1 = f (gs.getD j default)) :
    ((((gs.set i g2).set j o1)).get? k).map f = (gs.get? k).map f := by
  have h1 : f o1 = f ((gs.set i g2).getD j default) := by
    by_cases hij : i = j
    · subst hij
      rw [List.getD_eq_getD_get?, List.get?_set_eq g2 i gs]
      cases hq : gs.get? i with
      | none =>
        rw [ho, List.getD_eq_getD_get?, hq]
        rfl
      | some a =>
        have ha : gs.getD i default = a := by
          rw [List.getD_eq_getD_get?, hq]
          rfl
        show f o1 = f g2
        rw [ho, ha, hg, ha]
    · have hne : (gs.set i g2).getD j default = gs.getD j default := by
        rw [List.getD_eq_getD_get?, List.getD_eq_getD_get?,
            List.get?_set_ne g2 gs hij]
      rw [hne]
      exact ho
  exact (fmap_set_get? f (gs.set i g2) j k o1 h1).trans
    (fmap_set_get? f gs i k g2 hg)

theorem caOf_integrate (dt : ℝ) (g : Grain) :
    caOf (integrateGrain dt g) = caOf g := rfl

theorem caOf_collideWall (g : Grain) (w : LineSegment) :
    caOf (collideWall g w) = caOf g := by
  unfold collideWall
  simp only
  split_ifs <;> rfl

theorem caOf_foldl_collideWall (ws : List LineSegment) (g : Grain) :
    caOf (ws.foldl collideWall g) = caOf g := by
  induction ws generalizing g with
  | nil => rfl
  | cons w rest ih =>
    rw [List.foldl_cons, ih, caOf_collideWall]

theorem caOf_floorCollide (geo : HourglassGeometry) (g : Grain) :
    caOf (floorCollide geo g) = caOf g := by
  unfold floorCollide
  split_ifs <;> rfl

theorem caOf_ceilingCollide (geo : HourglassGeometry) (g : Grain) :
    caOf (ceilingCollide geo g) = caOf g := by
  unfold ceilingCollide
  split_ifs <;> rfl

theorem pairStep_get? (i j k : ℕ) (gs : List Grain) :
    ((pairStep i j gs).get? k).map caOf = (gs.get? k).map caOf := by
  unfold pairStep
  simp only
  split_ifs with h1 h2 h3 h4 <;>
    first
    | rfl
    | · apply fmap_set_set_get? caOf gs i j k <;> rfl

theorem settleCheck_get? (geo : HourglassGeometry) (nearby : List ℕ)
    (i k : ℕ) (gs : List Grain) :
    ((settleCheck geo nearby i gs).get? k).map caOf = (gs.get? k).map caOf := by
  unfold settleCheck
  simp only
  split_ifs <;>
    first
    | rfl
    | exact fmap_set_get? caOf gs i k _ rfl

theorem foldl_pairStep_get? (i : ℕ) (js : List ℕ) (gs : List Grain) (k : ℕ) :
    ((js.foldl (fun acc j => pairStep i j acc) gs).get? k).map caOf
      = (gs.get? k).map caOf := by
  induction js generalizing gs with
  | nil => rfl
  | cons j rest ih =>
    rw [List.foldl_cons]
    exact (ih (pairStep i j gs)).trans (pairStep_get? i j k gs)

theorem updateGrain_get? (geo : HourglassGeometry) (grid : ℤ × ℤ → List ℕ)
    (dt : ℝ) (gs : List Grain) (i k : ℕ) :
    ((updateGrain geo grid dt gs i).get? k).map caOf = (gs.get? k).map caOf := by
  unfold updateGrain
  simp only
  rw [settleCheck_get?, foldl_pairStep_get?]
  exact fmap_set_get? caOf gs i k _
    (by rw [caOf_ceilingCollide, caOf_floorCollide, caOf_foldl_collideWall,
            caOf_integrate])

theorem updateLoop_get? (geo : HourglassGeometry) (grid : ℤ × ℤ → List ℕ)
    (dt : ℝ) (gs : List Grain) (k : ℕ) :
    ((updateLoop geo grid dt gs).get? k).map caOf = (gs.get? k).map caOf := by
  unfold updateLoop
  generalize List.range gs.length = idxs
  induction idxs generalizing gs with
  | nil => rfl
  | cons i rest ih =>
    rw [List.foldl_cons]
    refine (ih _).trans ?_
    simp only
    split_ifs with h
    · exact updateGrain_get? geo grid dt gs i k
    · rfl

theorem colors_get?_of_caOf {gs gs2 : List Grain} (k : ℕ)
    (h : (gs2.get? k).map caOf = (gs.get? k).map caOf) :
    (gs2.get? k).map Grain.colorOffset = (gs.get? k).map Grain.colorOffset := by
  have h2 := congrArg (Option.map Prod.fst) h
  rw [Option.map_map, Option.map_map] at h2
  exact h2

theorem actives_get?_of_caOf {gs gs2 : List Grain} (k : ℕ)
    (h : (gs2.get? k).map caOf = (gs.get? k).map caOf) :
    (gs2.get? k).map Grain.active = (gs.get? k).map Grain.active := by
  have h2 := congrArg (Option.map Prod.snd) h
  rw [Option.map_map, Option.map_map] at h2
  exact h2

theorem releaseNextGrain_colors_get? (geo : HourglassGeometry)
    (r1 r2 r3 : ℝ) (s : ParticleSystem) (k : ℕ) :
    (((s.releaseNextGrain geo r1 r2 r3).grains.get? k).map Grain.colorOffset)
      = ((s.grains.get? k).map Grain.colorOffset) := by
  unfold ParticleSystem.releaseNextGrain
  cases h : bestInactive s.grains with
  | none => rfl
  | some jy =>
    cases jy with
    | mk j y =>
      exact fmap_set_get? Grain.colorOffset s.grains j k _ rfl

theorem releaseLoop_colors_get? (geo : HourglassGeometry) (rand : ℕ → ℝ) :
    ∀ (n j : ℕ) (s : ParticleSystem) (k : ℕ),
    (((ParticleSystem.releaseLoop geo rand n j s).grains.get? k).map Grain.colorOffset)
      = ((s.grains.get? k).map Grain.colorOffset) := by
  intro n
  induction n with
  | zero => intro j s k; rfl
  | succ m ih =>
    intro j s k
    rw [ParticleSystem.releaseLoop]
    exact (ih (j + 1) _ k).trans (releaseNextGrain_colors_get? geo _ _ _ s k)

theorem update_colors_get? (s : ParticleSystem) (rand : ℕ → ℝ)
    (dt : ℝ) (e : ℚ) (k : ℕ) :
    (((s.update rand dt e).grains.get? k).map Grain.colorOffset)
      = ((s.grains.get? k).map Grain.colorOffset) := by
  cases hg : s.geometry with
  | none => rw [update_of_geometry_none s rand dt e hg]
  | some geo =>
    rw [update_of_some s geo rand dt e hg]
    unfold ParticleSystem.updateBody
    by_cases hne : s.grains.length = 0
    · rw [if_pos hne]
    · rw [if_neg hne]
      refine (colors_get?_of_caOf k (updateLoop_get? geo _ dt _ k)).trans ?_
      exact releaseLoop_colors_get? geo rand _ 0 { s with elapsedMs := e } k

theorem explode_caOf_get? (s : ParticleSystem) (rand : ℕ → ℝ) (k : ℕ) :
    (((s.explode rand).grains.get? k).map caOf) = ((s.grains.get? k).map caOf) := by
  cases hq : s.grains.get? k with
  | none =>
    have hlen : s.grains.length ≤ k := List.get?_eq_none.mp hq
    have : (s.explode rand).grains.get? k = none := by
      apply List.get?_eq_none.mpr
      show (List.mapIdx _ s.grains).length ≤ k
      rw [List.length_mapIdx]
      exact hlen
    rw [this]
  | some g =>
    have hmap := get?_mapIdx_of_get? s.grains
      (fun i g => if g.settled ∧ g.active then
        { g with settled := false,
                 vy := -(200 + rand (2 * i) * 300),
                 vx := (rand (2 * i + 1) - 0.5) * 200 }
      else g) k g hq
    simp only at hmap
    show ((List.mapIdx _ s.grains).get? k).map caOf = Option.map caOf (some g)
    rw [hmap]
    by_cases hc : g.settled = true ∧ g.active = true
    · rw [if_pos hc]
      rfl
    · rw [if_neg hc]

theorem explode_colors_get? (s : ParticleSystem) (rand : ℕ → ℝ) (k : ℕ) :
    (((s.explode rand).grains.get? k).map Grain.colorOffset)
      = ((s.grains.get? k).map Grain.colorOffset) :=
  colors_get?_of_caOf k (explode_caOf_get? s rand k)

/-- C9: across any sequence of update and explode calls, every grain's
colorOffset is unchanged, pointwise at every index; consequently the whole
list of colorOffset values is unchanged. -/
theorem C9_colorOffset_invariant (s : ParticleSystem) (ops : List Op)
    (hops : ∀ op ∈ ops, PhysicsOp op) :
    (∀ k, (((runOps s ops).grains.get? k).map Grain.colorOffset)
      = ((s.grains.get? k).map Grain.colorOffset)) ∧
    colorsOf (runOps s ops).grains = colorsOf s.grains := by
  have hmain : ∀ (ops2 : List Op), (∀ op ∈ ops2, PhysicsOp op) →
      ∀ (s2 : ParticleSystem) (k : ℕ),
      (((runOps s2 ops2).grains.get? k).map Grain.colorOffset)
        = ((s2.grains.get? k).map Grain.colorOffset) := by
    intro ops2
    induction ops2 with
    | nil => intro _ s2 k; rfl
    | cons op rest ih =>
      intro hops2 s2 k
      have hop : PhysicsOp op := hops2 op (List.mem_cons_self op rest)
      have hrest : ∀ op2 ∈ rest, PhysicsOp op2 :=
        fun op2 h2 => hops2 op2 (List.mem_cons_of_mem op h2)
      show (((runOps (applyOp s2 op) rest).grains.get? k).map Grain.colorOffset) = _
      rw [ih hrest (applyOp s2 op) k]
      cases op with
      | opUpdate rand dt e => exact update_colors_get? s2 rand dt e k
      | opExplode rand => exact explode_colors_get? s2 rand k
      | opInit rand totalMs => exact absurd hop (by simp [PhysicsOp])
      | opReset => exact absurd hop (by simp [PhysicsOp])
      | opSetGeometry geo => exact absurd hop (by simp [PhysicsOp])
  refine ⟨hmain ops hops s, ?_⟩
  apply List.ext
  intro k
  show (List.map Grain.colorOffset _).get? k = (List.map Grain.colorOffset _).get? k
  rw [List.get?_map, List.get?_map]
  exact hmain ops hops s k

/-- Witness for C9 at one update followed by one explode on the concrete
one-grain state. -/
theorem C9_colorOffset_invariant_witness :
    (∀ op ∈ [Op.opUpdate rand0 1 300, Op.opExplode rand0], PhysicsOp op) ∧
    colorsOf (runOps s2ex [Op.opUpdate rand0 1 300, Op.opExplode rand0]).grains
      = colorsOf s2ex.grains := by
  have hops : ∀ op ∈ [Op.opUpdate rand0 1 300, Op.opExplode rand0], PhysicsOp op := by
    intro op hop
    rcases List.mem_cons.mp hop with rfl | hop2
    · trivial
    · rcases List.mem_cons.mp hop2 with rfl | hop3
      · trivial
      · exact absurd hop3 (List.not_mem_nil op)
  exact ⟨hops, (C9_colorOffset_invariant s2ex _ hops).2⟩

theorem bestInactiveGo_none :
    ∀ (gs : List Grain) (j0 : ℕ) (acc : Option (ℕ × ℝ)),
    bestInactiveGo gs j0 acc = none →
    acc = none ∧ ∀ g ∈ gs, g.active = true := by
  intro gs
  induction gs with
  | nil =>
    intro j0 acc h
    exact ⟨h, fun g hg => absurd hg (List.not_mem_nil g)⟩
  | cons g rest ih =>
    intro j0 acc h
    rw [bestInactiveGo.eq_def] at h
    simp only at h
    obtain ⟨hacc1, hrest⟩ := ih (j0 + 1) _ h
    by_cases hga : g.active = true
    · rw [if_pos hga] at hacc1
      refine ⟨hacc1, ?_⟩
      intro g2 hg2
      rcases List.mem_cons.mp hg2 with rfl | h2
      · exact hga
      · exact hrest g2 h2
    · rw [if_neg hga] at hacc1
      exfalso
      cases acc with
      | none => exact Option.noConfusion hacc1
      | some p =>
        cases p with
        | mk jb yb =>
          simp only at hacc1
          split_ifs at hacc1

theorem bestInactiveGo_some :
    ∀ (gs : List Grain) (j0 : ℕ) (acc : Option (ℕ × ℝ)) (j : ℕ) (y : ℝ),
    bestInactiveGo gs j0 acc = some (j, y) →
    (acc = some (j, y) ∨
      ∃ (k : ℕ) (g : Grain), gs.get? k = some g ∧ g.active = false ∧ j = j0 + k) := by
  intro gs
  induction gs with
  | nil =>
    intro j0 acc j y h
    exact Or.inl h
  | cons g rest ih =>
    intro j0 acc j y h
    rw [bestInactiveGo.eq_def] at h
    simp only at h
    rcases ih (j0 + 1) _ j y h with hacc1 | ⟨k, g2, hget, hact, hjk⟩
    · by_cases hga : g.active = true
      · rw [if_pos hga] at hacc1
        exact Or.inl hacc1
      · rw [if_neg hga] at hacc1
        have hgf : g.active = false := by
          cases hb : g.active
          · rfl
          · exact absurd hb hga
        cases acc with
        | none =>
          have hj : j0 = j := congrArg Prod.fst (Option.some.inj hacc1)
          exact Or.inr ⟨0, g, rfl, hgf, by omega⟩
        | some p =>
          cases p with
          | mk jb yb =>
            simp only at hacc1
            split_ifs at hacc1 with hlt
            · have hj : j0 = j := congrArg Prod.fst (Option.some.inj hacc1)
              exact Or.inr ⟨0, g, rfl, hgf, by omega⟩
            · exact Or.inl hacc1
    · exact Or.inr ⟨k + 1, g2, hget, hact, by omega⟩

theorem bestInactive_none (gs : List Grain)
    (h : bestInactive gs = none) : ∀ g ∈ gs, g.active = true :=
  (bestInactiveGo_none gs 0 none h).2

theorem bestInactive_some (gs : List Grain) (j : ℕ) (y : ℝ)
    (h : bestInactive gs = some (j, y)) :
    ∃ g : Grain, gs.get? j = some g ∧ g.active = false := by
  rcases bestInactiveGo_some gs 0 none j y h with hacc | ⟨k, g, hget, hact, hjk⟩
  · exact absurd hacc (by simp)
  · have : j = k := by omega
    subst this
    exact ⟨g, hget, hact⟩

theorem count_true_set_true :
    ∀ (bs : List Bool) (j : ℕ), bs.get? j = some false →
    (bs.set j true).count true = bs.count true + 1 := by
  intro bs
  induction bs with
  | nil =>
    intro j h
    exact absurd h (by simp)
  | cons b rest ih =>
    intro j h
    cases j with
    | zero =>
      have hb : b = false := Option.some.inj h
      subst hb
      show (true :: rest).count true = (false :: rest).count true + 1
      simp [List.count_cons]
    | succ j =>
      have hr := ih j h
      show (b :: rest.set j true).count true = (b :: rest).count true + 1
      cases b <;> simp [List.count_cons, hr]

theorem count_true_eq_length_of_all (gs : List Grain)
    (h : ∀ g ∈ gs, g.active = true) :
    (activesOf gs).count true = gs.length := by
  have hlen : (activesOf gs).length = gs.length := List.length_map _ _
  rw [← hlen]
  apply List.count_eq_length.mpr
  intro b hb
  obtain ⟨g, hg, rfl⟩ := List.mem_map.mp hb
  exact (h g hg).symm

theorem exists_inactive_of_count_lt (gs : List Grain)
    (h : (activesOf gs).count true < gs.length) :
    ∃ g ∈ gs, g.active = false := by
  by_contra hall
  push_neg at hall
  have : ∀ g ∈ gs, g.active = true := by
    intro g hg
    cases hb : g.active
    · exact absurd hb (hall g hg)
    · rfl
  rw [count_true_eq_length_of_all gs this] at h
  exact lt_irrefl _ h

theorem releaseNextGrain_activeCount (geo : HourglassGeometry)
    (r1 r2 r3 : ℝ) (s : ParticleSystem)
    (hlen : s.grains.length = s.totalGrains)
    (hact : (activesOf s.grains).count true = s.releasedCount)
    (hlt : s.releasedCount < s.totalGrains) :
    (activesOf (s.releaseNextGrain geo r1 r2 r3).grains).count true
      = s.releasedCount + 1 := by
  unfold ParticleSystem.releaseNextGrain
  cases h : bestInactive s.grains with
  | none =>
    exfalso
    have hall := bestInactive_none s.grains h
    have := count_true_eq_length_of_all s.grains hall
    omega
  | some jy =>
    cases jy with
    | mk j y =>
      obtain ⟨b0, hget, hb0⟩ := bestInactive_some s.grains j y h
      show (activesOf (s.grains.set j _)).count true = _
      have hmapset : activesOf (s.grains.set j
          { s.grains.getD j default with
            x := (geo.neckLeft + geo.neckRight) / 2
              + (r1 - 0.5) * (geo.neckRight - geo.neckLeft
                - (s.grains.getD j default).radius * 2),
            y := geo.neckTopY + 2,
            vx := (r2 - 0.5) * 10,
            vy := 20 + r3 * 30,
            active := true, settled := false })
          = (activesOf s.grains).set j true := List.map_set
      rw [hmapset]
      have hgetb : (activesOf s.grains).get? j = some false := by
        rw [activesOf, List.get?_map, hget]
        show some b0.active = some false
        rw [hb0]
      rw [count_true_set_true (activesOf s.grains) j hgetb, hact]

theorem releaseLoop_activeCount (geo : HourglassGeometry) (rand : ℕ → ℝ) :
    ∀ (n j : ℕ) (s : ParticleSystem),
    s.grains.length = s.totalGrains →
    (activesOf s.grains).count true = s.releasedCount →
    s.releasedCount + n ≤ s.totalGrains →
    (activesOf (ParticleSystem.releaseLoop geo rand n j s).grains).count true
      = s.releasedCount + n := by
  intro n
  induction n with
  | zero =>
    intro j s _ hact _
    simpa using hact
  | succ m ih =>
    intro j s hlen hact hle
    rw [ParticleSystem.releaseLoop]
    obtain ⟨f1, f2, f3, f4, f5, f6⟩ := releaseNextGrain_fields geo
      (rand (3 * j)) (rand (3 * j + 1)) (rand (3 * j + 2)) s
    have hcnt := releaseNextGrain_releasedCount geo
      (rand (3 * j)) (rand (3 * j + 1)) (rand (3 * j + 2)) s
    have hstep := releaseNextGrain_activeCount geo
      (rand (3 * j)) (rand (3 * j + 1)) (rand (3 * j + 2)) s hlen hact (by omega)
    have := ih (j + 1)
      (s.releaseNextGrain geo (rand (3 * j)) (rand (3 * j + 1)) (rand (3 * j + 2)))
      (by rw [f6, f1]; exact hlen) (by rw [hcnt]; exact hstep) (by rw [hcnt, f1]; omega)
    rw [this, hcnt]
    omega

theorem updateLoop_actives (geo : HourglassGeometry) (grid : ℤ × ℤ → List ℕ)
    (dt : ℝ) (gs : List Grain) :
    activesOf (updateLoop geo grid dt gs) = activesOf gs := by
  apply List.ext
  intro k
  show (List.map Grain.active _).get? k = (List.map Grain.active _).get? k
  rw [List.get?_map, List.get?_map]
  exact actives_get?_of_caOf k (updateLoop_get? geo grid dt gs k)

theorem explode_actives (s : ParticleSystem) (rand : ℕ → ℝ) :
    activesOf (s.explode rand).grains = activesOf s.grains := by
  apply List.ext
  intro k
  show (List.map Grain.active _).get? k = (List.map Grain.active _).get? k
  rw [List.get?_map, List.get?_map]
  exact actives_get?_of_caOf k (explode_caOf_get? s rand k)

theorem updateLoop_length (geo : HourglassGeometry) (grid : ℤ × ℤ → List ℕ)
    (dt : ℝ) (gs : List Grain) :
    (updateLoop geo grid dt gs).length = gs.length := by
  have h := congrArg List.length (updateLoop_actives geo grid dt gs)
  rwa [activesOf, activesOf, List.length_map, List.length_map] at h

theorem update_counts (s : ParticleSystem) (geo : HourglassGeometry)
    (rand : ℕ → ℝ) (dt : ℝ) (e : ℚ)
    (hgeo : s.geometry = some geo) (hne : s.grains.length ≠ 0)
    (h1 : activeCount s = s.releasedCount)
    (h2 : s.releasedCount ≤ s.totalGrains)
    (h3 : s.grains.length = s.totalGrains) :
    activeCount (s.update rand dt e) = (s.update rand dt e).releasedCount ∧
    (s.update rand dt e).releasedCount ≤ (s.update rand dt e).totalGrains ∧
    (s.update rand dt e).grains.length = (s.update rand dt e).totalGrains := by
  rw [update_of_some s geo rand dt e hgeo]
  unfold ParticleSystem.updateBody
  rw [if_neg hne]
  have htgt : (ParticleSystem.targetReleased
      { s with elapsedMs := e } e) ≤ (s.totalGrains : ℤ) := by
    rw [ParticleSystem.targetReleased]
    split_ifs
    · exact le_refl _
    · exact_mod_cast h2
    · exact min_le_left _ _
  have hn : s.releasedCount + ((ParticleSystem.targetReleased
      { s with elapsedMs := e } e) - (s.releasedCount : ℤ)).toNat
      ≤ s.totalGrains := by omega
  have hloopA := releaseLoop_activeCount geo rand
    ((ParticleSystem.targetReleased { s with elapsedMs := e } e
      - (s.releasedCount : ℤ)).toNat) 0
    { s with elapsedMs := e } h3 h1 hn
  have hloopC := releaseLoop_releasedCount geo rand
    ((ParticleSystem.targetReleased { s with elapsedMs := e } e
      - (s.releasedCount : ℤ)).toNat) 0
    { s with elapsedMs := e }
  obtain ⟨f1, f2, f3, f4, f5⟩ := releaseLoop_fields geo rand
    ((ParticleSystem.targetReleased { s with elapsedMs := e } e
      - (s.releasedCount : ℤ)).toNat) 0
    { s with elapsedMs := e }
  refine ⟨?_, ?_, ?_⟩
  · show (activesOf (updateLoop geo _ dt _)).count true
      = (ParticleSystem.releaseLoop geo rand _ 0 _).releasedCount
    rw [updateLoop_actives, hloopA, hloopC]
  · show (ParticleSystem.releaseLoop geo rand _ 0 _).releasedCount
      ≤ (ParticleSystem.releaseLoop geo rand _ 0 _).totalGrains
    rw [hloopC, f1]
    exact hn
  · show (updateLoop geo _ dt _).length
      = (ParticleSystem.releaseLoop geo rand _ 0 _).totalGrains
    rw [updateLoop_length, f5, f1]
    exact h3

theorem countInv_applyOp (s : ParticleSystem) (op : Op) (h : CountInv s) :
    CountInv (applyOp s op) := by
  obtain ⟨h1, h2, h3, h4⟩ := h
  cases op with
  | opSetGeometry geo =>
    refine ⟨h1, h2, h3, ?_⟩
    intro hg
    exact absurd hg (by simp [applyOp, ParticleSystem.setGeometry])
  | opReset =>
    exact ⟨rfl, Nat.le_refl 0, rfl, fun _ => rfl⟩
  | opInit rand totalMs =>
    show CountInv (s.init rand totalMs)
    cases hg : s.geometry with
    | none =>
      rw [init_of_geometry_none s rand totalMs hg]
      have ht : s.totalGrains = 0 := h4 hg
      refine ⟨rfl, Nat.zero_le _, ?_, fun _ => ht⟩
      show (0 : ℕ) = s.totalGrains
      omega
    | some geo =>
      rw [init_of_geometry_some s geo rand totalMs hg]
      refine ⟨?_, Nat.zero_le _, ?_, ?_⟩
      · show ((((List.range (grainCountFor totalMs)).map
            (initGrain geo rand))).map Grain.active).count true = 0
        apply List.count_eq_zero.mpr
        intro hmem
        rw [List.map_map] at hmem
        obtain ⟨i, _, hi⟩ := List.mem_map.mp hmem
        exact Bool.noConfusion hi
      · show ((List.range (grainCountFor totalMs)).map
            (initGrain geo rand)).length = grainCountFor totalMs
        rw [List.length_map, List.length_range]
      · intro hgeo2
        have hsg : s.geometry = none := hgeo2
        rw [hg] at hsg
        exact Option.noConfusion hsg
  | opExplode rand =>
    refine ⟨?_, h2, ?_, h4⟩
    · show (activesOf (s.explode rand).grains).count true = s.releasedCount
      rw [explode_actives]
      exact h1
    · show (List.mapIdx _ s.grains).length = s.totalGrains
      rw [List.length_mapIdx]
      exact h3
  | opUpdate rand dt e =>
    show CountInv (s.update rand dt e)
    cases hg : s.geometry with
    | none =>
      rw [update_of_geometry_none s rand dt e hg]
      exact ⟨h1, h2, h3, h4⟩
    | some geo =>
      by_cases hne : s.grains.length = 0
      · rw [update_of_some s geo rand dt e hg]
        unfold ParticleSystem.updateBody
        rw [if_pos hne]
        exact ⟨h1, h2, h3, h4⟩
      · obtain ⟨c1, c2, c3⟩ := update_counts s geo rand dt e hg hne h1 h2 h3
        refine ⟨c1, c2, c3, ?_⟩
        intro hx
        rw [(update_const_fields s rand dt e).1, hg] at hx
        exact Option.noConfusion hx

theorem countInv_runOps_aux (ops : List Op) :
    ∀ s : ParticleSystem, CountInv s → CountInv (runOps s ops) := by
  induction ops with
  | nil => intro s h; exact h
  | cons op rest ih =>
    intro s h
    exact ih (applyOp s op) (countInv_applyOp s op h)

theorem countInv_runOps (ops : List Op) :
    CountInv (runOps initialState ops) :=
  countInv_runOps_aux ops initialState ⟨rfl, Nat.le_refl 0, rfl, fun _ => rfl⟩

/-- C10: after any sequence of public operations from the initial state, the
number of active grains equals releasedCount, releasedCount never exceeds
totalGrains, and while releasedCount < totalGrains an inactive candidate
grain exists. -/
theorem C10_active_eq_released (ops : List Op) :
    activeCount (runOps initialState ops)
      = (runOps initialState ops).releasedCount ∧
    (runOps initialState ops).releasedCount
      ≤ (runOps initialState ops).totalGrains ∧
    ((runOps initialState ops).releasedCount
        < (runOps initialState ops).totalGrains →
      ∃ g ∈ (runOps initialState ops).grains, g.active = false) := by
  obtain ⟨h1, h2, h3, h4⟩ := countInv_runOps ops
  refine ⟨h1, h2, ?_⟩
  intro hlt
  apply exists_inactive_of_count_lt
  have hc : (activesOf (runOps initialState ops).grains).count true
      = (runOps initialState ops).releasedCount := h1
  omega

/-- Witness for C10 after a setGeometry followed by an init. -/
theorem C10_active_eq_released_witness :
    activeCount (runOps initialState [Op.opSetGeometry geo0, Op.opInit rand0 60000])
      = (runOps initialState [Op.opSetGeometry geo0, Op.opInit rand0 60000]).releasedCount :=
  (C10_active_eq_released [Op.opSetGeometry geo0, Op.opInit rand0 60000]).1

theorem wallDist_nonneg (g : Grain) (w : LineSegment) : 0 ≤ wallDist g w :=
  Real.sqrt_nonneg _

theorem wallDist_sq (g : Grain) (w : LineSegment) :
    wallDist g w * wallDist g w
      = (g.x - (wallClosest g w).1) * (g.x - (wallClosest g w).1)
        + (g.y - (wallClosest g w).2) * (g.y - (wallClosest g w).2) := by
  unfold wallDist
  exact Real.mul_self_sqrt
    (add_nonneg (mul_self_nonneg _) (mul_self_nonneg _))

theorem wallNormal_sq (g : Grain) (w : LineSegment) :
    (wallNormal g w).1 * (wallNormal g w).1
      + (wallNormal g w).2 * (wallNormal g w).2 = 1 := by
  unfold wallNormal
  simp only
  split_ifs with hd
  · simp only
    have hsq := wallDist_sq g w
    have hne : wallDist g w ≠ 0 := ne_of_gt hd
    field_simp
    linarith
  · norm_num

/-- C5 amended: for a non-degenerate wall segment whose closest point is
nearer to the grain center than its radius, the grain is pushed out so that
its center ends at distance exactly radius from the closest point, and the
tangential velocity component is unchanged; but the normal velocity
component is not reflected: when the grain moves into the wall (v·n < 0) it
is scaled by the positive factor 1 - 2·DAMPING = 0.4, keeping its sign, and
when v·n ≥ 0 the velocity is left entirely unchanged. DAMPING itself is 0.3,
which is less than 1. -/
theorem C5_wall_collision (g : Grain) (w : LineSegment)
    (hlen : (w.x2 - w.x1) * (w.x2 - w.x1) + (w.y2 - w.y1) * (w.y2 - w.y1) ≠ 0)
    (hhit : wallDist g w < g.radius) :
    (Real.sqrt
        (((collideWall g w).x - (wallClosest g w).1)
          * ((collideWall g w).x - (wallClosest g w).1)
        + ((collideWall g w).y - (wallClosest g w).2)
          * ((collideWall g w).y - (wallClosest g w).2)) = g.radius) ∧
    ((collideWall g w).vx * (-(wallNormal g w).2)
        + (collideWall g w).vy * (wallNormal g w).1
      = g.vx * (-(wallNormal g w).2) + g.vy * (wallNormal g w).1) ∧
    (g.vx * (wallNormal g w).1 + g.vy * (wallNormal g w).2 < 0 →
      (collideWall g w).vx * (wallNormal g w).1
          + (collideWall g w).vy * (wallNormal g w).2
        = (1 - 2 * DAMPING)
          * (g.vx * (wallNormal g w).1 + g.vy * (wallNormal g w).2)) ∧
    (0 ≤ g.vx * (wallNormal g w).1 + g.vy * (wallNormal g w).2 →
      (collideWall g w).vx = g.vx ∧ (collideWall g w).vy = g.vy) ∧
    (0 < DAMPING ∧ DAMPING < 1 ∧ 0 < 1 - 2 * DAMPING) := by
  have hr : 0 ≤ g.radius := le_trans (wallDist_nonneg g w) (le_of_lt hhit)
  have hnorm := wallNormal_sq g w
  have htouch : ((wallClosest g w).1 + (wallNormal g w).1 * g.radius
        - (wallClosest g w).1)
      * ((wallClosest g w).1 + (wallNormal g w).1 * g.radius
        - (wallClosest g w).1)
      + ((wallClosest g w).2 + (wallNormal g w).2 * g.radius
        - (wallClosest g w).2)
      * ((wallClosest g w).2 + (wallNormal g w).2 * g.radius
        - (wallClosest g w).2)
      = g.radius * g.radius := by
    linear_combination (g.radius * g.radius) * hnorm
  unfold collideWall
  simp only
  rw [if_neg hlen, if_pos hhit]
  split_ifs with hdot
  · refine ⟨?_, by ring, ?_, ?_, by norm_num [DAMPING]⟩
    · show Real.sqrt _ = g.radius
      rw [htouch]
      exact Real.sqrt_mul_self hr
    · intro _
      show (g.vx - 2 * (g.vx * (wallNormal g w).1 + g.vy * (wallNormal g w).2)
            * (wallNormal g w).1 * DAMPING) * (wallNormal g w).1
          + (g.vy - 2 * (g.vx * (wallNormal g w).1 + g.vy * (wallNormal g w).2)
            * (wallNormal g w).2 * DAMPING) * (wallNormal g w).2
        = (1 - 2 * DAMPING)
          * (g.vx * (wallNormal g w).1 + g.vy * (wallNormal g w).2)
      linear_combination (-(2 * DAMPING
        * (g.vx * (wallNormal g w).1 + g.vy * (wallNormal g w).2))) * hnorm
    · intro hge
      exact absurd hdot (not_lt.mpr hge)
  · refine ⟨?_, by ring, ?_, fun _ => ⟨rfl, rfl⟩, by norm_num [DAMPING]⟩
    · show Real.sqrt _ = g.radius
      rw [htouch]
      exact Real.sqrt_mul_self hr
    · intro hlt
      exact absurd hlt hdot

/-- Witness for C5 amended: the concrete grain gEx overlapping the
horizontal wall wEx from above. -/
theorem C5_wall_collision_witness :
    ((wEx.x2 - wEx.x1) * (wEx.x2 - wEx.x1)
      + (wEx.y2 - wEx.y1) * (wEx.y2 - wEx.y1) ≠ 0) ∧
    (wallDist gEx wEx < gEx.radius) ∧
    (0 < DAMPING ∧ DAMPING < 1 ∧ 0 < 1 - 2 * DAMPING) := by
  have hd : wallDist gEx wEx < gEx.radius := by
    have ht : wallT gEx wEx = 1 / 2 := by
      unfold wallT
      norm_num [gEx, wEx]
    have hc : wallClosest gEx wEx = (5, 0) := by
      unfold wallClosest
      rw [ht]
      norm_num [wEx]
    have : wallDist gEx wEx = 1 := by
      unfold wallDist
      rw [hc]
      norm_num [gEx, Real.sqrt_one]
    rw [this]
    norm_num [gEx]
  exact ⟨by norm_num [wEx], hd,
    (C5_wall_collision gEx wEx (by norm_num [wEx]) hd).2.2.2.2⟩

/-- C5 counterexample: for the concrete grain gEx (center (5,1), radius 2.5,
velocity (0,-10)) against the horizontal wall wEx, the contact normal is
(0,1) and the post-collision normal velocity is -4 — the same sign as the
incoming -10. No damping factor d in (0,1) satisfies v-normal-after =
-d · v-normal-before, so the claimed reflection does not happen: with
DAMPING = 0.3 < 1/2 the formula v -= 2·(v·n)·n·DAMPING attenuates the
normal component without flipping it. -/
theorem C5_reflection_counterexample :
    wallNormal gEx wEx = (0, 1) ∧
    gEx.vy = -10 ∧
    (collideWall gEx wEx).vy = -4 ∧
    ¬ ∃ d : ℝ, 0 < d ∧ d < 1 ∧ (collideWall gEx wEx).vy = -(d * gEx.vy) := by
  have ht : wallT gEx wEx = 1 / 2 := by
    unfold wallT
    norm_num [gEx, wEx]
  have hc : wallClosest gEx wEx = (5, 0) := by
    unfold wallClosest
    rw [ht]
    norm_num [wEx]
  have hd : wallDist gEx wEx = 1 := by
    unfold wallDist
    rw [hc]
    norm_num [gEx, Real.sqrt_one]
  have hn : wallNormal gEx wEx = (0, 1) := by
    unfold wallNormal
    simp only
    rw [hc, hd]
    norm_num [gEx]
  have hvy : (collideWall gEx wEx).vy = -4 := by
    unfold collideWall
    simp only
    rw [hc, hd, hn]
    rw [if_neg (by norm_num [wEx]), if_pos (by norm_num [gEx])]
    rw [if_pos (by norm_num [gEx])]
    norm_num [gEx, DAMPING]
  refine ⟨hn, rfl, hvy, ?_⟩
  intro ⟨d, hd0, hd1, heq⟩
  rw [hvy] at heq
  have hvy10 : gEx.vy = -10 := rfl
  rw [hvy10] at heq
  nlinarith

/-- C6 amended: the width query is a pure, deterministic function of y and
the current geometry; it returns the full neck width inside the neck band,
and in each bulb a value eased from the neck width toward the maximum width
(neck width + 120) via the plain square root of the clamped normalized
distance t from the neck into that bulb — not via sqrt(cosine-ease(t)). -/
theorem C6_width_at_y (geo : HourglassGeometry) (y : ℝ)
    (s s2 : ParticleSystem) :
    (geo.neckTopY ≤ y ∧ y ≤ geo.neckBottomY →
      getWidthAtY geo y = geo.neckRight - geo.neckLeft) ∧
    (y < geo.neckTopY →
      getWidthAtY geo y = (geo.neckRight - geo.neckLeft)
        + 120 * Real.sqrt
            (min 1 ((geo.neckTopY - y) / (geo.neckTopY - geo.topCeilingY)))) ∧
    (geo.neckTopY ≤ geo.neckBottomY → geo.neckBottomY < y →
      getWidthAtY geo y = (geo.neckRight - geo.neckLeft)
        + 120 * Real.sqrt
            (min 1 ((y - geo.neckBottomY) / (geo.bottomFloorY - geo.neckBottomY)))) ∧
    (s.geometry = s2.geometry → s.widthAtY y = s2.widthAtY y) := by
  refine ⟨?_, ?_, ?_, ?_⟩
  · intro hband
    unfold getWidthAtY
    rw [if_pos hband]
  · intro htop
    have hnot : ¬(geo.neckTopY ≤ y ∧ y ≤ geo.neckBottomY) := by
      intro ⟨h1, _⟩
      exact absurd htop (not_lt.mpr h1)
    unfold getWidthAtY
    rw [if_neg hnot, if_pos htop]
    ring
  · intro hsane hbot
    have hnot : ¬(geo.neckTopY ≤ y ∧ y ≤ geo.neckBottomY) := by
      intro ⟨_, h2⟩
      exact absurd hbot (not_lt.mpr h2)
    have hnot2 : ¬(y < geo.neckTopY) := by
      intro h
      exact absurd (lt_trans hbot h) (not_lt.mpr hsane)
    unfold getWidthAtY
    rw [if_neg hnot, if_neg hnot2]
    ring
  · intro hgeo
    unfold ParticleSystem.widthAtY
    rw [hgeo]

/-- Witness for C6 amended at the concrete geometry, a y in the neck band. -/
theorem C6_width_at_y_witness :
    (geo0.neckTopY ≤ 110 ∧ (110 : ℝ) ≤ geo0.neckBottomY) ∧
    getWidthAtY geo0 110 = geo0.neckRight - geo0.neckLeft :=
  ⟨by norm_num [geo0],
   (C6_width_at_y geo0 110 initialState initialState).1 (by norm_num [geo0])⟩

/-- C6 counterexample: at y = 75 in the top bulb of the concrete geometry
(t = 1/4), the code eases by sqrt(t) and returns 70, while the spec's
sqrt(cosine-ease(t)) easing gives 10 + 120·sqrt((1 - √2/2)/2) ≠ 70; the two
easings agree only at t ∈ {0, 1/2, 1}. -/
theorem C6_cosine_ease_counterexample :
    getWidthAtY geo0 75 ≠ specWidthAtY geo0 75 := by
  have hs2a : Real.sqrt 2 * Real.sqrt 2 = 2 := Real.mul_self_sqrt (by norm_num)
  have hs2b : (0 : ℝ) ≤ Real.sqrt 2 := Real.sqrt_nonneg 2
  have hs2le : Real.sqrt 2 ≤ 2 := by nlinarith
  have hg : getWidthAtY geo0 75 = 70 := by
    unfold getWidthAtY
    rw [if_neg (by norm_num [geo0]), if_pos (by norm_num [geo0])]
    simp only
    have ht : min (1 : ℝ)
        ((geo0.neckTopY - 75) / (geo0.neckTopY - geo0.topCeilingY))
        = (1 / 2 : ℝ) * (1 / 2) := by
      norm_num [geo0]
    rw [ht, Real.sqrt_mul_self (by norm_num : (0:ℝ) ≤ 1 / 2)]
    norm_num [geo0]
  have hcos : cosEase (min (1 : ℝ)
      ((geo0.neckTopY - 75) / (geo0.neckTopY - geo0.topCeilingY)))
      = (1 - Real.sqrt 2 / 2) / 2 := by
    have ht : min (1 : ℝ)
        ((geo0.neckTopY - 75) / (geo0.neckTopY - geo0.topCeilingY))
        = (1 / 4 : ℝ) := by
      norm_num [geo0]
    rw [ht]
    unfold cosEase
    rw [show Real.pi * (1 / 4 : ℝ) = Real.pi / 4 by ring, Real.cos_pi_div_four]
  have hsp : specWidthAtY geo0 75
      = 10 + 120 * Real.sqrt ((1 - Real.sqrt 2 / 2) / 2) := by
    unfold specWidthAtY
    rw [if_neg (by norm_num [geo0]), if_pos (by norm_num [geo0])]
    simp only
    rw [hcos]
    norm_num [geo0]
  rw [hg, hsp]
  intro heq
  have hhalf : Real.sqrt ((1 - Real.sqrt 2 / 2) / 2) = 1 / 2 := by linarith
  have hnn : (0 : ℝ) ≤ (1 - Real.sqrt 2 / 2) / 2 := by nlinarith
  have hsq : (1 - Real.sqrt 2 / 2) / 2 = 1 / 4 := by
    have h1 := Real.mul_self_sqrt hnn
    rw [hhalf] at h1
    linarith
  have : Real.sqrt 2 = 1 := by linarith
  nlinarith

end Hourglass
